import Mathlib

/-!
Verification of the Manchester-encoding modem (encode.py / decode.py).

The Python sources are shallowly embedded below:

* byte streams are `List Nat` (each entry a byte value 0..255);
* logical bit streams are `List Bool`;
* the audio waveform is a `List Int` of signed 16-bit sample amplitudes;
* Python floats are modelled exactly: every float the decoder computes is a
  dyadic rational (the clock estimate is only ever built from integers by
  `(x + n) / 2`, `* 0.75`, `* 1.25` and `/ 4`), represented by the type `Dy`
  below and mapped into `ℚ` for specification statements;
* exceptions are modelled with `Except` / explicit result constructors:
  Python `ValueError` corresponds to `Err.endOfStream`, `Err.framingError`
  and `Err.stuffingViolation`, the bare `Exception("Lost tracking!...")`
  to `Err.lostTracking`;
* the unbounded `while True` loops take an explicit fuel argument; top-level
  entry points pass `samples.length + 1`, which is enough fuel because every
  iteration consumes at least one sample.
-/

namespace Manchester

set_option maxRecDepth 200000

/-- Exceptions raised by the decoder.  `endOfStream`, `framingError` and
`stuffingViolation` are `ValueError`s in decode.py; `lostTracking` is the
plain `Exception` raised by `Main.decodeBit`.  `outOfFuel` is an artifact of
the fuel-based embedding of `while True` loops and never occurs when a loop
is given more fuel than there are input samples. -/
inductive Err where
  | endOfStream
  | framingError
  | stuffingViolation
  | lostTracking
  | outOfFuel
  deriving DecidableEq, Repr

deriving instance DecidableEq for Except

/-- The `ValueError`s that `Main.decodeActualData`'s `except ValueError`
clause catches, ending the in-stream loop ("Stream finished"). -/
inductive Term where
  | endOfStream
  | framingError
  | stuffingViolation
  deriving DecidableEq, Repr

/-- How `Main.decodeActualData` ends: a caught `ValueError` (`finished`), a
propagating non-`ValueError` exception (`crashed`), or fuel exhaustion (a
model artifact). -/
inductive DecodeEnd where
  | finished (t : Term)
  | crashed (e : Err)
  | outOfFuel
  deriving DecidableEq, Repr

/-- Overall outcome of `Main.run` in decode.py: `initFailure` is the
`except ValueError` branch of `run` ("Ran out of input data before
completing initialization!"); `streamDone` is `decodeActualData` returning
after catching a `ValueError`; `crashed` is an uncaught exception. -/
inductive RunResult where
  | initFailure
  | streamDone (t : Term)
  | crashed (e : Err)
  | noFuel
  deriving DecidableEq, Repr

/-! ### Exact dyadic arithmetic for the decoder's float state -/

/-- A dyadic rational `num / 2 ^ exp`.  All floats computed by decode.py are
of this form: `clockDuration` starts at the integer 0 and is only updated by
`(clockDuration + cyclesSinceLastInversion) / 2`, and the decoder multiplies
it by `0.75 = 3/4`, `1.25 = 5/4` and `PREAMBLE_DURATION / 4`. -/
structure Dy where
  num : Int
  exp : Nat
  deriving DecidableEq, Repr

/-- The rational value of a dyadic number. -/
def Dy.toRat (d : Dy) : ℚ := (d.num : ℚ) / 2 ^ d.exp

/-- Embed a natural number (e.g. Python int `bitDuration`). -/
def Dy.ofNat (n : Nat) : Dy := ⟨n, 0⟩

/-- Value-level strict comparison `d < e` (cross-multiplied by `2 ^ exp`). -/
def Dy.blt (d e : Dy) : Bool := decide (d.num * 2 ^ e.exp < e.num * 2 ^ d.exp)

/-- `(d + n) / 2`, the clock-blending step of `goToNextZeroCrossing`. -/
def Dy.halfAddNat (d : Dy) (n : Nat) : Dy := ⟨d.num + n * 2 ^ d.exp, d.exp + 1⟩

/-- `(k * d) / 4`; used for `* 0.75` (k = 3), `* 1.25` (k = 5) and
`PREAMBLE_DURATION * clockDuration / 4` (k = 512). -/
def Dy.mulQuarter (k : Int) (d : Dy) : Dy := ⟨k * d.num, d.exp + 2⟩

/-! ### encode.py -/

/-- encode.py line 35: `FRAME_DELIMITER = 129  # (1, 0, 0, 0, 0, 0, 0, 1)`.
(The decoder's constant of the same name has a different value, see
`FRAME_DELIMITER_dec` below.) -/
def FRAME_DELIMITER_enc : Nat := 129

/-- encode.py line 36: `PREAMBLE_DURATION = 128`. -/
def PREAMBLE_DURATION_enc : Nat := 128

/-- encode.py line 37: `AUDIO_VOLUME = 16384`. -/
def AUDIO_VOLUME : Int := 16384

/-- encode.py line 38: `AUDIO_BITRATE = 44100`. -/
def AUDIO_BITRATE : Nat := 44100

/-- The `for x in range(8)` loop body of `Main.encodeByte`, emitting the
logical bits: each data bit least-significant first, with a stuffed 0
appended after 5 consecutive 1s (`consecutiveOnes` then resets to 0).
`remaining` counts the loop iterations still to run. -/
def encodeByteBitsAux (byte : Nat) : Nat → Nat → Nat → List Bool
  | _, 0, _ => []
  | x, remaining + 1, consecutiveOnes =>
    let lastBit := ((byte >>> x) &&& 1) == 1
    let ones := if lastBit then consecutiveOnes + 1 else 0
    if ones == 5 then
      lastBit :: false :: encodeByteBitsAux byte (x + 1) remaining 0
    else
      lastBit :: encodeByteBitsAux byte (x + 1) remaining ones

/-- encode.py `Main.encodeByte`, at the logical-bit level (each returned
bit is rendered on the wire by `Main.encodeBit`). -/
def encodeByteBits (byte : Nat) : List Bool := encodeByteBitsAux byte 0 8 0

/-- The file-reading loop of encode.py `Main.run` at the logical-bit level:
a frame delimiter before every 64th data byte (including position 0), and a
terminating delimiter when input is exhausted. -/
def encodeStreamBitsAux : List Nat → Nat → List Bool
  | [], _ => encodeByteBits FRAME_DELIMITER_enc
  | b :: rest, position =>
    (if position % 64 == 0 then encodeByteBits FRAME_DELIMITER_enc else []) ++
      encodeByteBits b ++ encodeStreamBitsAux rest (position + 1)

/-- Logical bit stream encode.py emits after the preamble. -/
def encodeStreamBits (data : List Nat) : List Bool := encodeStreamBitsAux data 0

/-- encode.py `Main.outputPreamble`: 128 alternating bits starting with 1. -/
def preambleBits : List Bool := (List.range PREAMBLE_DURATION_enc).map (fun x => x % 2 == 0)

/-- encode.py `Main.out`: one already-encoded half-cell, held for
`int(AUDIO_BITRATE / clock)` samples at amplitude ±`AUDIO_VOLUME`. -/
def outSamples (clock : Nat) (encodedBit : Bool) : List Int :=
  List.replicate (AUDIO_BITRATE / clock) (if encodedBit then AUDIO_VOLUME else -AUDIO_VOLUME)

/-- encode.py `Main.encodeBit`: 1 ↦ low-then-high, 0 ↦ high-then-low. -/
def encodeBitSamples (clock : Nat) (bit : Bool) : List Int :=
  if bit then outSamples clock false ++ outSamples clock true
  else outSamples clock true ++ outSamples clock false

/-- Render a logical bit stream as a waveform. -/
def bitsToSamples (clock : Nat) (bits : List Bool) : List Int :=
  bits.flatMap (encodeBitSamples clock)

/-- encode.py `Main.run`: rejects `clock > AUDIO_BITRATE / 2`, then writes
the preamble followed by the delimited, stuffed data and the terminal
delimiter. -/
def encodeRun (clock : Nat) (data : List Nat) : Option (List Int) :=
  if AUDIO_BITRATE / 2 < clock then none
  else some (bitsToSamples clock (preambleBits ++ encodeStreamBits data))

/-! ### decode.py -/

/-- decode.py line 35: `FRAME_DELIMITER = 126  # (01111110)`. -/
def FRAME_DELIMITER_dec : Nat := 126

/-- decode.py line 36: `FRAME_DELIMITER_EVERY_BYTES = 64`. -/
def FRAME_DELIMITER_EVERY_BYTES : Nat := 64

/-- decode.py line 37: `PREAMBLE_DURATION = 512`. -/
def PREAMBLE_DURATION_dec : Nat := 512

/-- decode.py line 39: `AUDIO_MIN_VOLUME = 12288`. -/
def AUDIO_MIN_VOLUME : Int := 12288

/-- decode.py `Main.goToNextZeroCrossing`, the `while True` loop with local
state `prev` (sign of the last loud-enough sample) and
`cyclesSinceLastInversion`.  Each iteration consumes one sample (`readframes`
raising `ValueError` on an empty read).  A sample registers only when
`lvl > AUDIO_MIN_VOLUME or lvl < -AUDIO_MIN_VOLUME`; its sign is
`lvl > AUDIO_MIN_VOLUME`.  A sign flip returns `(cycles, sign)` after, when
`adjustClockDuration`, blending the observed duration into the clock:
`clockDuration = (clockDuration + cyclesSinceLastInversion) / 2`.
Returns the crossing, the updated clock and the unread samples. -/
def goToNextZeroCrossingAux (adjustClockDuration : Bool) (clockDuration : Dy)
    (prev : Option Bool) (cycles : Nat) :
    List Int → Except Err ((Nat × Bool) × Dy × List Int)
  | [] => .error .endOfStream
  | lvl :: rest =>
    if AUDIO_MIN_VOLUME < lvl ∨ lvl < -AUDIO_MIN_VOLUME then
      let v : Bool := decide (AUDIO_MIN_VOLUME < lvl)
      let prev1 : Bool := prev.getD v
      if v != prev1 then
        let clk' := if adjustClockDuration then Dy.halfAddNat clockDuration cycles
                    else clockDuration
        .ok ((cycles, v), clk', rest)
      else
        goToNextZeroCrossingAux adjustClockDuration clockDuration (some prev1) (cycles + 1) rest
    else
      goToNextZeroCrossingAux adjustClockDuration clockDuration prev
        (if prev.isSome then cycles + 1 else cycles) rest

/-- `Main.goToNextZeroCrossing` entered fresh (`prev = None`, zero count). -/
def goToNextZeroCrossing (adjustClockDuration : Bool) (clockDuration : Dy)
    (samples : List Int) : Except Err ((Nat × Bool) × Dy × List Int) :=
  goToNextZeroCrossingAux adjustClockDuration clockDuration none 0 samples

/-- decode.py `Main.syncWithClock`: consume crossings with clock adjustment
until `analyzedCycles > PREAMBLE_DURATION * clockDuration / 4`.  Returns the
final clock estimate, the unread samples and the accumulated cycle count. -/
def syncWithClockAux (clockDuration : Dy) (analyzedCycles : Nat) (samples : List Int) :
    Nat → Except Err (Dy × List Int × Nat)
  | 0 => .error .outOfFuel
  | fuel + 1 =>
    match goToNextZeroCrossing true clockDuration samples with
    | .error e => .error e
    | .ok ((cycles, _raising), clk', rest) =>
      let analyzed' := analyzedCycles + cycles
      if Dy.blt (Dy.mulQuarter PREAMBLE_DURATION_dec clk') (Dy.ofNat analyzed') then
        .ok (clk', rest, analyzed')
      else
        syncWithClockAux clk' analyzed' rest fuel

/-- decode.py `Main.decodeBit`, the accumulation loop: `bitDuration` sums
crossing durations; a sum `< clockDuration * 0.75` is ignored and folded
into the next iteration, a sum `> clockDuration * 1.25` raises the
lost-tracking exception, otherwise the crossing's polarity is the bit.
(`goToNextZeroCrossing(False)` leaves the clock unchanged.) -/
def decodeBitAux (clockDuration : Dy) (bitDuration : Nat) (samples : List Int) :
    Nat → Except Err (Bool × List Int)
  | 0 => .error .outOfFuel
  | fuel + 1 =>
    match goToNextZeroCrossing false clockDuration samples with
    | .error e => .error e
    | .ok ((duration, raising), _clk, rest) =>
      let bd := bitDuration + duration
      if Dy.blt (Dy.ofNat bd) (Dy.mulQuarter 3 clockDuration) then
        decodeBitAux clockDuration bd rest fuel
      else if Dy.blt (Dy.mulQuarter 5 clockDuration) (Dy.ofNat bd) then
        .error .lostTracking
      else
        .ok (raising, rest)

/-- `Main.decodeBit` with zero accumulated duration and enough fuel for the
remaining samples. -/
def decodeBit (clockDuration : Dy) (samples : List Int) : Except Err (Bool × List Int) :=
  decodeBitAux clockDuration 0 samples (samples.length + 1)

/-- A supplier of decoded logical bits over stream state `σ`:
`Main.decodeByte` / `Main.waitForStart` / `Main.decodeActualData` consume
bits one at a time through `self.decodeBit()`.  Instantiated with
`waveSource` (the real sample-level `decodeBit`) and with `listSource`
(a plain logical bit list, for bit-level reasoning). -/
structure BitSource (σ : Type) where
  next : σ → Except Err (Bool × σ)

/-- The waveform-backed bit source of decode.py, at a frozen clock. -/
def waveSource (clockDuration : Dy) : BitSource (List Int) :=
  ⟨fun samples => decodeBit clockDuration samples⟩

/-- A pre-decoded logical bit stream (reading past the end is the same
`ValueError` as an empty `readframes`). -/
def listSource : BitSource (List Bool) :=
  ⟨fun bits => match bits with
    | [] => .error .endOfStream
    | b :: rest => .ok (b, rest)⟩

/-- decode.py `Main.decodeByte`, the `for x in range(8)` loop: each bit is
shifted into the top of `decodedByte` (so the first bit read lands in the
least significant position), `consecutiveOnes` counts 1-bits; on the 5th
consecutive 1 — only when not expecting a frame delimiter — the following
bit must be a stuffed 0 and is discarded, a 1 there raising the
`ValueError('Found xx0111111 while not expecting a delimiter!')`
(`consecutiveOnes` is not reset by that check). -/
def decodeByteAux {σ : Type} (src : BitSource σ) (expectFrameDelimiter : Bool) :
    Nat → Nat → Nat → σ → Except Err (Nat × σ)
  | 0, decodedByte, _ones, s => .ok (decodedByte, s)
  | remaining + 1, decodedByte, consecutiveOnes, s =>
    match src.next s with
    | .error e => .error e
    | .ok (value, s1) =>
      let db0 := (decodedByte >>> 1) &&& 255
      let db := if value then db0 + 128 else db0
      let ones := if value then consecutiveOnes + 1 else 0
      if ones == 5 && !expectFrameDelimiter then
        match src.next s1 with
        | .error e => .error e
        | .ok (stuffed, s2) =>
          if stuffed then .error .stuffingViolation
          else decodeByteAux src expectFrameDelimiter remaining db ones s2
      else
        decodeByteAux src expectFrameDelimiter remaining db ones s1

/-- decode.py `Main.decodeByte` (8 bits, zeroed accumulator and counter). -/
def decodeByte {σ : Type} (src : BitSource σ) (expectFrameDelimiter : Bool) (s : σ) :
    Except Err (Nat × σ) :=
  decodeByteAux src expectFrameDelimiter 8 0 0 s

/-- decode.py `Main.waitForStart`: shift each decoded bit into the low end
of an 8-bit register until it equals `FRAME_DELIMITER` (126). -/
def waitForStartAux {σ : Type} (src : BitSource σ) (lastByte : Nat) (s : σ) :
    Nat → Except Err σ
  | 0 => .error .outOfFuel
  | fuel + 1 =>
    match src.next s with
    | .error e => .error e
    | .ok (value, s1) =>
      let lb := ((lastByte <<< 1) &&& 255) + (if value then 1 else 0)
      if lb == FRAME_DELIMITER_dec then .ok s1
      else waitForStartAux src lb s1 fuel

/-- One iteration of the `while True` body of `Main.decodeActualData`: when
`position > 0 and position % FRAME_DELIMITER_EVERY_BYTES == 0`, first decode
a byte with `expectFrameDelimiter=True` (no destuffing) and raise the
framing `ValueError` unless it equals `FRAME_DELIMITER`; then decode one
destuffed data byte. -/
def decodeStep {σ : Type} (src : BitSource σ) (position : Nat) (s : σ) :
    Except Err (Nat × σ) :=
  let expectFrameDelimiter := position != 0 && position % FRAME_DELIMITER_EVERY_BYTES == 0
  match (if expectFrameDelimiter then
           match decodeByte src true s with
           | .error e => .error e
           | .ok (decodedByte, s1) =>
             if decodedByte == FRAME_DELIMITER_dec then .ok s1
             else .error .framingError
         else .ok s : Except Err σ) with
  | .error e => .error e
  | .ok s1 => decodeByte src false s1

/-- Which exceptions `Main.decodeActualData`'s `except ValueError` catches. -/
def errCaught : Err → Option Term
  | .endOfStream => some .endOfStream
  | .framingError => some .framingError
  | .stuffingViolation => some .stuffingViolation
  | .lostTracking => none
  | .outOfFuel => none

/-- decode.py `Main.decodeActualData`.  The external output sink is modelled
by `writeFails`: `writeFails position = true` means
`outputSink.write(bytes([decodedByte]))` raises at that position, which the
inner `try/except Exception` swallows (the byte is lost, the loop goes on).
Returns the bytes that reached the sink and how the loop ended. -/
def decodeActualDataAux {σ : Type} (src : BitSource σ) (writeFails : Nat → Bool) :
    Nat → Nat → σ → List Nat × DecodeEnd
  | 0, _, _ => ([], .outOfFuel)
  | fuel + 1, position, s =>
    match decodeStep src position s with
    | .error e =>
      match errCaught e with
      | some t => ([], .finished t)
      | none => ([], .crashed e)
    | .ok (decodedByte, s2) =>
      let r := decodeActualDataAux src writeFails fuel (position + 1) s2
      ((if writeFails position then r.1 else decodedByte :: r.1), r.2)

/-- decode.py `Main.decodeActualData` from `position = 0` ("We already
consumed the first delimiter"), with a sink that never fails. -/
def decodeActualData {σ : Type} (src : BitSource σ) (fuel : Nat) (s : σ) :
    List Nat × DecodeEnd :=
  decodeActualDataAux src (fun _ => false) fuel 0 s

/-- decode.py `Main.run` on an input waveform: `syncWithClock`, then
`waitForStart`, then `decodeActualData`, with `run`'s `except ValueError`
turning an `EndOfStream` during the first two phases into the
"Ran out of input data before completing initialization!" outcome.
A lost-tracking exception is caught nowhere and crashes the run. -/
def decodeRun (samples : List Int) : List Nat × RunResult :=
  match syncWithClockAux ⟨0, 0⟩ 0 samples (samples.length + 1) with
  | .error _ => ([], .initFailure)
  | .ok (clk, rest, _analyzed) =>
    match waitForStartAux (waveSource clk) 0 rest (rest.length + 1) with
    | .error .endOfStream => ([], .initFailure)
    | .error e => ([], .crashed e)
    | .ok s =>
      match decodeActualData (waveSource clk) (s.length + 1) s with
      | (out, .finished t) => (out, .streamDone t)
      | (out, .crashed e) => (out, .crashed e)
      | (out, .outOfFuel) => (out, .noFuel)

/-! ### Specification-side helpers -/

/-- Whether a bit list starts with six consecutive 1-bits. -/
def startsWithSixOnes : List Bool → Bool
  | true :: true :: true :: true :: true :: true :: _ => true
  | _ => false

/-- Whether a bit list contains a run of at least six consecutive 1-bits. -/
def containsSixOnes : List Bool → Bool
  | [] => false
  | b :: rest => startsWithSixOnes (b :: rest) || containsSixOnes rest

/-- Drop from a position-indexed byte list the entries whose position the
predicate marks; used to state what a failing output sink loses. -/
def filterIdx (writeFails : Nat → Bool) : Nat → List Nat → List Nat
  | _, [] => []
  | pos, b :: rest =>
    if writeFails pos then filterIdx writeFails (pos + 1) rest
    else b :: filterIdx writeFails (pos + 1) rest

/-! ### Helper lemmas on dyadic arithmetic -/

theorem Dy.toRat_ofNat (n : Nat) : (Dy.ofNat n).toRat = n := by
  simp [Dy.ofNat, Dy.toRat]

theorem Dy.toRat_halfAddNat (d : Dy) (n : Nat) :
    (Dy.halfAddNat d n).toRat = (d.toRat + n) / 2 := by
  simp only [Dy.halfAddNat, Dy.toRat]
  push_cast
  rw [pow_succ]
  field_simp

theorem Dy.toRat_mulQuarter (k : Int) (d : Dy) :
    (Dy.mulQuarter k d).toRat = k * d.toRat / 4 := by
  simp only [Dy.mulQuarter, Dy.toRat]
  push_cast
  rw [pow_add, mul_div_assoc', div_div]
  norm_num

theorem Dy.blt_iff (d e : Dy) : Dy.blt d e = true ↔ d.toRat < e.toRat := by
  simp only [Dy.blt, Dy.toRat, decide_eq_true_eq]
  rw [div_lt_div_iff₀ (by positivity) (by positivity)]
  constructor
  · intro h
    exact_mod_cast h
  · intro h
    exact_mod_cast h

/-! ### C1 — round-trip of the full pipelines -/

/-- C1: the claimed round-trip `decode(encode(bytes)) = bytes` fails on the
code.  At the failing input `[0x00]` (clock 22050 Hz, i.e. 2 samples per
half-cell), the decoder run on the encoder's full waveform crashes with the
lost-tracking exception having written no output at all, instead of
recovering `[0x00]`: the encoder frames with delimiter byte 129 while the
decoder hunts for and verifies 126. -/
theorem roundTrip_fails_on_single_zero_byte :
    (encodeRun 22050 [0]).map decodeRun =
      some ([], RunResult.crashed Err.lostTracking) ∧
    ([] : List Nat) ≠ [0] := by
  constructor
  · decide
  · decide

/-! ### C2 — the frame-delimiter value on the wire -/

/-- C2: the claim that both sides use delimiter value 0x7E (126) is false:
encode.py's `FRAME_DELIMITER` is 129, so the delimiter token written at
stream start, every 64 data bytes and as terminal marker is 129
(wire bits 10000001), while decode.py hunts for 126 (wire bits 01111110);
the decoder's hunt can therefore never lock onto the encoder's delimiter
token. -/
theorem frame_delimiter_constants_disagree :
    FRAME_DELIMITER_enc = 129 ∧
    FRAME_DELIMITER_dec = 126 ∧
    FRAME_DELIMITER_enc ≠ FRAME_DELIMITER_dec ∧
    encodeStreamBits [0] =
      encodeByteBits FRAME_DELIMITER_enc ++ encodeByteBits 0 ++
        encodeByteBits FRAME_DELIMITER_enc ∧
    encodeByteBits FRAME_DELIMITER_enc =
      [true, false, false, false, false, false, false, true] ∧
    waitForStartAux listSource 0 (encodeByteBits FRAME_DELIMITER_enc) 100 =
      .error .endOfStream ∧
    waitForStartAux listSource 0 [false, true, true, true, true, true, true, false] 100 =
      .ok [] := by
  decide

/-! ### C3 — delimiter verification schedule in the in-stream loop -/

/-- C3 counterexample: at `position = 0` (which satisfies `0 % 64 = 0`) the
in-stream loop decodes and emits a plain data byte with no preceding
delimiter verification: on a stream whose first 8 bits encode the byte 0
(not a delimiter), the loop outputs that byte and runs to end-of-stream
instead of raising the framing error the claim would require. -/
theorem no_delimiter_check_at_position_zero :
    decodeActualData listSource 10 (List.replicate 8 false) =
      ([0], .finished .endOfStream) ∧
    decodeByte listSource true (List.replicate 8 false) = .ok (0, []) ∧
    (0 : Nat) ≠ FRAME_DELIMITER_dec ∧
    decodeActualData listSource 10 (List.replicate 8 false) ≠
      ([], .finished .framingError) := by
  decide

/-! ### C4 — no run of six 1-bits in the encoded stream -/

/-- C4 counterexample: `encodeByte` resets its `consecutiveOnes` counter at
every byte, so a run of 1-bits spanning a byte boundary is not stuffed: the
data bytes 0xE0 (224) and 0x07 (7) emit, inside the data region between
delimiter tokens, six consecutive 1-bits. -/
theorem six_ones_across_byte_boundary :
    containsSixOnes (encodeByteBits 224 ++ encodeByteBits 7) = true ∧
    containsSixOnes (encodeStreamBits [224, 7]) = true := by
  decide

/-- C4 amended: within the bits emitted for any single byte, `encodeByte`'s
stuffing does prevent a run of six consecutive 1-bits; only runs that span
a byte boundary can reach length ≥ 6, because the consecutive-ones counter
restarts at 0 for each byte. -/
theorem no_six_consecutive_ones_within_one_byte :
    ∀ b : Fin 256, containsSixOnes (encodeByteBits b.val) = false := by
  decide

/-! ### C5 — single-byte encode/decode round-trip with stuffing -/

/-- C5: for every byte value (including 0x7E and 0xFF), feeding the logical
bits of `encodeByte(b)` to `decodeByte` with `expectFrameDelimiter=False`
returns exactly `b` with the whole bit sequence consumed — the stuffed 0
after five consecutive 1s is discarded without contributing to the value —
and a 1 in the stuffed position raises the stuffing `ValueError`. -/
theorem decodeByte_inverts_encodeByte :
    (∀ b : Fin 256, decodeByte listSource false (encodeByteBits b.val) = .ok (b.val, [])) ∧
    decodeByte listSource false
        [true, true, true, true, true, true, false, false, false] =
      .error .stuffingViolation := by
  decide

/-! ### C8 — clean end versus abrupt truncation -/

/-- C8: the decoder does not distinguish a clean end from an abrupt
truncation.  A stream that ends with the encoder's terminal delimiter token
(byte 129 after the data byte 65) and a stream truncated mid-byte both end
the in-stream loop with the identical caught end-of-stream `ValueError`
("stream finished"); the terminal delimiter is even consumed as an ordinary
data byte and written to the output sink. -/
theorem clean_end_and_truncation_indistinguishable :
    decodeActualData listSource 10
        (encodeByteBits 65 ++ encodeByteBits FRAME_DELIMITER_enc) =
      ([65, 129], .finished .endOfStream) ∧
    decodeActualData listSource 10 (encodeByteBits 65 ++ [true]) =
      ([65], .finished .endOfStream) := by
  decide

/-- C3 amended: in the in-stream loop, for every position `p > 0` with
`p % 64 = 0` a delimiter byte is decoded — without destuffing — and verified
before the data byte at that position, and a mismatch raises the framing
`ValueError`, terminating the loop at once with no byte emitted (the
delimiter preceding position 0 is the one already consumed by the
delimiter hunt before the loop starts).  The second conjunct shows the
`expectFrameDelimiter=True` read is raw: it consumes exactly 8 bits,
assembling them least-significant-first with no stuffed bit discarded and
no stuffing violation possible. -/
theorem delimiter_checked_at_positive_multiples_of_64 :
    (∀ (σ : Type) (src : BitSource σ) (writeFails : Nat → Bool) (fuel position : Nat)
        (s s1 : σ) (db : Nat),
        position ≠ 0 → position % FRAME_DELIMITER_EVERY_BYTES = 0 →
        decodeByte src true s = .ok (db, s1) → db ≠ FRAME_DELIMITER_dec →
        decodeActualDataAux src writeFails (fuel + 1) position s =
          ([], .finished .framingError)) ∧
    (∀ (b1 b2 b3 b4 b5 b6 b7 b8 : Bool) (rest : List Bool),
        decodeByte listSource true (b1 :: b2 :: b3 :: b4 :: b5 :: b6 :: b7 :: b8 :: rest) =
          .ok ((if b1 then 1 else 0) + (if b2 then 2 else 0) + (if b3 then 4 else 0) +
               (if b4 then 8 else 0) + (if b5 then 16 else 0) + (if b6 then 32 else 0) +
               (if b7 then 64 else 0) + (if b8 then 128 else 0), rest)) := by
  constructor
  · intro σ src writeFails fuel position s s1 db hpos hmod hdb hne
    have hexp : (position != 0 && position % FRAME_DELIMITER_EVERY_BYTES == 0) = true := by
      simp [hpos, hmod]
    have hbe : (db == FRAME_DELIMITER_dec) = false := by
      simp [hne]
    simp only [decodeActualDataAux, decodeStep, hexp, if_true, hdb, hbe, Bool.false_eq_true,
      if_false, errCaught]
  · intro b1 b2 b3 b4 b5 b6 b7 b8 rest
    cases b1 <;> cases b2 <;> cases b3 <;> cases b4 <;> cases b5 <;> cases b6 <;>
      cases b7 <;> cases b8 <;> rfl

/-- C3 amended claim, instantiated: at position 64 on a stream whose next 8
bits raw-decode to 0 (not the delimiter), the loop terminates immediately
with the framing error and no output. -/
theorem delimiter_checked_at_positive_multiples_of_64_witness :
    decodeActualDataAux listSource (fun _ => false) 1 64 (List.replicate 8 false) =
      ([], .finished .framingError) :=
  delimiter_checked_at_positive_multiples_of_64.1 (List Bool) listSource (fun _ => false)
    0 64 (List.replicate 8 false) [] 0 (by decide) (by decide) (by decide) (by decide)

/-! ### C6 — the decodeBit acceptance window -/

/-- C6: `decodeBit` accumulates successive crossing durations; with
accumulated duration `acc` and a next crossing of duration `d`, it folds
the sum into the next iteration when the sum is strictly below
`0.75 × clockDuration`, raises lost-tracking when strictly above
`1.25 × clockDuration`, and otherwise — boundaries included at both ends —
returns the crossing's polarity as the decoded bit. -/
theorem decodeBit_window_spec :
    ∀ (clk : Dy) (acc fuel : Nat) (samples rest : List Int) (d : Nat) (r : Bool) (clk' : Dy),
      goToNextZeroCrossing false clk samples = .ok ((d, r), clk', rest) →
      ((((acc + d : Nat) : ℚ) < 3 * clk.toRat / 4 →
          decodeBitAux clk acc samples (fuel + 1) = decodeBitAux clk (acc + d) rest fuel) ∧
       (3 * clk.toRat / 4 ≤ ((acc + d : Nat) : ℚ) →
          ((acc + d : Nat) : ℚ) ≤ 5 * clk.toRat / 4 →
          decodeBitAux clk acc samples (fuel + 1) = .ok (r, rest)) ∧
       (5 * clk.toRat / 4 < ((acc + d : Nat) : ℚ) →
          decodeBitAux clk acc samples (fuel + 1) = .error .lostTracking)) := by
  intro clk acc fuel samples rest d r clk' h
  have hblt3 : Dy.blt (Dy.ofNat (acc + d)) (Dy.mulQuarter 3 clk) = true ↔
      ((acc + d : Nat) : ℚ) < 3 * clk.toRat / 4 := by
    rw [Dy.blt_iff, Dy.toRat_ofNat, Dy.toRat_mulQuarter]
    norm_num
  have hblt5 : Dy.blt (Dy.mulQuarter 5 clk) (Dy.ofNat (acc + d)) = true ↔
      5 * clk.toRat / 4 < ((acc + d : Nat) : ℚ) := by
    rw [Dy.blt_iff, Dy.toRat_ofNat, Dy.toRat_mulQuarter]
    norm_num
  refine ⟨?_, ?_, ?_⟩
  · intro h1
    simp only [decodeBitAux, h, hblt3.mpr h1, if_true]
  · intro h1 h2
    have g3 : Dy.blt (Dy.ofNat (acc + d)) (Dy.mulQuarter 3 clk) = false := by
      rw [Bool.eq_false_iff, Ne, hblt3]
      exact not_lt.mpr h1
    have g5 : Dy.blt (Dy.mulQuarter 5 clk) (Dy.ofNat (acc + d)) = false := by
      rw [Bool.eq_false_iff, Ne, hblt5]
      exact not_lt.mpr h2
    simp only [decodeBitAux, h, g3, g5, Bool.false_eq_true, if_false]
  · intro h1
    have g3 : Dy.blt (Dy.ofNat (acc + d)) (Dy.mulQuarter 3 clk) = false := by
      rw [Bool.eq_false_iff, Ne, hblt3]
      intro hlt
      rcases le_or_lt 0 clk.toRat with hc | hc
      · have : (3 : ℚ) * clk.toRat / 4 ≤ 5 * clk.toRat / 4 := by linarith
        linarith
      · have : (3 : ℚ) * clk.toRat / 4 < 0 := by linarith
        have hnn : (0 : ℚ) ≤ ((acc + d : Nat) : ℚ) := by positivity
        linarith
    simp only [decodeBitAux, h, g3, Bool.false_eq_true, if_false, hblt5.mpr h1, if_true]

/-- C6 instantiated at the boundaries: with clock estimate 4, a single
crossing of duration exactly `0.75 × 4 = 3` yields a bit, a single crossing
of duration exactly `1.25 × 4 = 5` yields a bit, and a crossing of duration
1 (a spurious half-cycle) is folded into the next iteration. -/
theorem decodeBit_window_spec_witness :
    decodeBitAux ⟨4, 0⟩ 0 [16384, 16384, 16384, -16384] 1 = .ok (false, []) ∧
    decodeBitAux ⟨4, 0⟩ 0 [16384, 16384, 16384, 16384, 16384, -16384] 1 = .ok (false, []) ∧
    decodeBitAux ⟨4, 0⟩ 0 [16384, -16384] 1 = decodeBitAux ⟨4, 0⟩ 1 [] 0 := by
  refine ⟨?_, ?_, ?_⟩
  · exact (decodeBit_window_spec ⟨4, 0⟩ 0 0 _ [] 3 false ⟨4, 0⟩ (by decide)).2.1
      (by norm_num [Dy.toRat]) (by norm_num [Dy.toRat])
  · exact (decodeBit_window_spec ⟨4, 0⟩ 0 0 _ [] 5 false ⟨4, 0⟩ (by decide)).2.1
      (by norm_num [Dy.toRat]) (by norm_num [Dy.toRat])
  · exact (decodeBit_window_spec ⟨4, 0⟩ 0 0 _ [] 1 false ⟨4, 0⟩ (by decide)).1
      (by norm_num [Dy.toRat])

/-! ### C7 — the exclusive minimum-volume threshold -/

/-- C7: a sample whose absolute amplitude equals `AUDIO_MIN_VOLUME` (12288)
exactly is ignored by the zero-crossing scanner — it leaves the tracked sign
unchanged and never registers as a crossing (it only advances the cycle
counter, as any sample after the first accepted one does) — while a sample
exceeding the threshold by 1 participates in sign tracking and registers a
crossing whenever its sign differs from the tracked one. -/
theorem threshold_equal_sample_ignored :
    ∀ (adjust : Bool) (clk : Dy) (prev : Option Bool) (cyc : Nat) (rest : List Int),
      goToNextZeroCrossingAux adjust clk prev cyc (12288 :: rest) =
        goToNextZeroCrossingAux adjust clk prev
          (if prev.isSome then cyc + 1 else cyc) rest ∧
      goToNextZeroCrossingAux adjust clk prev cyc ((-12288) :: rest) =
        goToNextZeroCrossingAux adjust clk prev
          (if prev.isSome then cyc + 1 else cyc) rest ∧
      goToNextZeroCrossingAux adjust clk (some false) cyc (12289 :: rest) =
        .ok ((cyc, true), (if adjust then Dy.halfAddNat clk cyc else clk), rest) ∧
      goToNextZeroCrossingAux adjust clk (some true) cyc ((-12289) :: rest) =
        .ok ((cyc, false), (if adjust then Dy.halfAddNat clk cyc else clk), rest) := by
  intro adjust clk prev cyc rest
  refine ⟨?_, ?_, ?_, ?_⟩ <;>
    simp [goToNextZeroCrossingAux, AUDIO_MIN_VOLUME]

/-! ### C9 — clock blending and the synchronization stopping rule -/

/-- C9: whenever `goToNextZeroCrossing` finds a crossing with clock
adjustment enabled, the returned clock estimate is exactly
`(clockDuration + cycles) / 2` for the returned observed duration `cycles`;
`syncWithClock` keeps consuming crossings this way — whenever the
accumulated cycles do not strictly exceed
`PREAMBLE_DURATION * clockDuration / 4` with the just-updated estimate it
loops again, and at a return the accumulated cycles do strictly exceed that
bound — and the end of input during synchronization raises the end-of-stream
`ValueError` (fatal: `run` then reports failed initialization). -/
theorem clock_blend_and_sync_stop_rule :
    (∀ (samples : List Int) (clk : Dy) (prev : Option Bool) (cyc n : Nat) (v : Bool)
        (clk' : Dy) (rest : List Int),
        goToNextZeroCrossingAux true clk prev cyc samples = .ok ((n, v), clk', rest) →
        clk'.toRat = (clk.toRat + n) / 2) ∧
    (∀ (fuel : Nat) (clk : Dy) (acc : Nat) (samples rest : List Int) (clkF : Dy)
        (accF : Nat),
        syncWithClockAux clk acc samples fuel = .ok (clkF, rest, accF) →
        (PREAMBLE_DURATION_dec : ℚ) * clkF.toRat / 4 < accF) ∧
    (∀ (fuel : Nat) (clk : Dy) (acc : Nat) (samples rest : List Int) (cycles : Nat)
        (v : Bool) (clk1 : Dy),
        goToNextZeroCrossing true clk samples = .ok ((cycles, v), clk1, rest) →
        ¬ ((PREAMBLE_DURATION_dec : ℚ) * clk1.toRat / 4 < ((acc + cycles : Nat) : ℚ)) →
        syncWithClockAux clk acc samples (fuel + 1) =
          syncWithClockAux clk1 (acc + cycles) rest fuel) ∧
    (∀ (clk : Dy) (acc fuel : Nat),
        syncWithClockAux clk acc [] (fuel + 1) = .error .endOfStream) := by
  refine ⟨?_, ?_, ?_, ?_⟩
  · intro samples
    induction samples with
    | nil =>
      intro clk prev cyc n v clk' rest h
      simp [goToNextZeroCrossingAux] at h
    | cons lvl tail ih =>
      intro clk prev cyc n v clk' rest h
      simp only [goToNextZeroCrossingAux] at h
      split at h
      · split at h
        · simp only [if_true, Except.ok.injEq, Prod.mk.injEq] at h
          obtain ⟨⟨hn, _⟩, hclk, _⟩ := h
          rw [← hclk, ← hn, Dy.toRat_halfAddNat]
        · exact ih _ _ _ _ _ _ _ h
      · exact ih _ _ _ _ _ _ _ h
  · intro fuel
    induction fuel with
    | zero =>
      intro clk acc samples rest clkF accF h
      simp [syncWithClockAux] at h
    | succ m ih =>
      intro clk acc samples rest clkF accF h
      simp only [syncWithClockAux] at h
      cases hg : goToNextZeroCrossing true clk samples with
      | error e =>
        rw [hg] at h
        simp at h
      | ok res =>
        obtain ⟨⟨cycles, raising⟩, clk1, rest1⟩ := res
        rw [hg] at h
        simp only at h
        split at h
        · rename_i hcond
          simp only [Except.ok.injEq, Prod.mk.injEq] at h
          obtain ⟨hclk, _, hacc⟩ := h
          rw [Dy.blt_iff, Dy.toRat_ofNat, Dy.toRat_mulQuarter] at hcond
          rw [← hclk, ← hacc]
          calc (PREAMBLE_DURATION_dec : ℚ) * clk1.toRat / 4
              = ((PREAMBLE_DURATION_dec : Int) : ℚ) * clk1.toRat / 4 := by push_cast; ring
            _ < ((acc + cycles : Nat) : ℚ) := hcond
        · exact ih _ _ _ _ _ _ h
  · intro fuel clk acc samples rest cycles v clk1 hg hnot
    have hb : Dy.blt (Dy.mulQuarter PREAMBLE_DURATION_dec clk1) (Dy.ofNat (acc + cycles)) =
        false := by
      rw [Bool.eq_false_iff, Ne, Dy.blt_iff, Dy.toRat_ofNat, Dy.toRat_mulQuarter]
      intro hlt
      apply hnot
      calc (PREAMBLE_DURATION_dec : ℚ) * clk1.toRat / 4
          = ((PREAMBLE_DURATION_dec : Int) : ℚ) * clk1.toRat / 4 := by push_cast; ring
        _ < ((acc + cycles : Nat) : ℚ) := hlt
    simp only [syncWithClockAux, hg, hb, Bool.false_eq_true, if_false]
  · intro clk acc fuel
    rfl

/-- C9 instantiated: from initial clock estimate 0, the first crossing of
the two-sample stream `[16384, -16384]` is observed after 1 counted cycle
and blends the clock to `(0 + 1) / 2 = 1/2`. -/
theorem clock_blend_and_sync_stop_rule_witness :
    Dy.toRat ⟨1, 1⟩ = (Dy.toRat ⟨0, 0⟩ + (1 : Nat)) / 2 :=
  clock_blend_and_sync_stop_rule.1 [16384, -16384] ⟨0, 0⟩ none 0 1 false ⟨1, 1⟩ []
    (by decide)

/-! ### C10 — write failures on the output sink -/

/-- C10: if writing a decoded byte to the output sink raises, the decoder
swallows the exception and continues exactly as if the write had succeeded:
the loop's termination is identical to the failure-free run, and the bytes
that reach the sink are exactly the failure-free output with the bytes at
failing positions dropped — each skipped byte still advances the position
counter. -/
theorem write_failure_skipped_and_decode_continues :
    ∀ (σ : Type) (src : BitSource σ) (writeFails : Nat → Bool) (fuel position : Nat)
      (s : σ),
      (decodeActualDataAux src writeFails fuel position s).2 =
        (decodeActualDataAux src (fun _ => false) fuel position s).2 ∧
      (decodeActualDataAux src writeFails fuel position s).1 =
        filterIdx writeFails position
          (decodeActualDataAux src (fun _ => false) fuel position s).1 := by
  intro σ src writeFails fuel
  induction fuel with
  | zero =>
    intro position s
    exact ⟨rfl, rfl⟩
  | succ n ih =>
    intro position s
    simp only [decodeActualDataAux]
    cases hs : decodeStep src position s with
    | error e =>
      cases he : errCaught e <;> simp [he, filterIdx]
    | ok p =>
      obtain ⟨b, s2⟩ := p
      have h1 := (ih (position + 1) s2).1
      have h2 := (ih (position + 1) s2).2
      refine ⟨by simpa using h1, ?_⟩
      by_cases hw : writeFails position <;>
        simp [hw, filterIdx, h2]

end Manchester
